import Mathlib

/-!
Verification of the yar.go RPC client (`src/client/client.go`) and the
host-sync discovery collaborator (`src/unnamed/part_000`, package
`host_sync`) against their natural-language specification.

Byte strings are modelled as `List Nat` (each entry a byte value, reduced
`% 256` wherever the code reads it as a machine byte).  Machine 32-bit
arithmetic is modelled with explicit `% 2^32`.  External collaborators
(the codec / Packager, the HTTP transport, gzip, the Resolver,
json.Marshal) are parameters of the functions that call them, so every
definition stays executable.
-/

namespace YarGo

/-- 2^32, the modulus of Go `uint32` arithmetic. -/
def u32size : Nat := 4294967296

/-- The five yar error kinds (yar.ErrorParam … yar.ErrorResponse). -/
inductive ErrType where
  | errorParam
  | errorConfig
  | errorPackager
  | errorNetwork
  | errorResponse
  deriving DecidableEq, Repr

/-- A yar.Error value: kind plus human-readable message. -/
structure YarError where
  errType : ErrType
  message : String
  deriving DecidableEq, Repr

/-- yar.NewError. -/
def newError (t : ErrType) (m : String) : YarError := ⟨t, m⟩

/-- Go byte-string rendered as a Lean string (`string(bytes)` in Go),
used where the code embeds raw response bytes in an error message. -/
def bytesToStr (bs : List Nat) : String :=
  String.mk (bs.map (fun b => Char.ofNat (b % 256)))

/-- A Lean string as a Go byte string (ASCII-level model of `[]byte(s)`). -/
def strBytes (s : String) : List Nat := s.data.map Char.toNat

/-- Modelled from the spec: the codec-name field width of the wire header
is 8 bytes (`yar.PackagerLength`; the `yar` package itself is not under
`src/`). -/
def PackagerLength : Nat := 8

/-- Modelled from the spec: the header width excluding the codec-name
field (`yar.ProtocolLength`).  The spec's field table gives
tag 4B + correlation id 4B + provider 28B + credential 32B + body length
4B = 72 bytes, with the 8-byte codec-name field counted separately. -/
def ProtocolLength : Nat := 72

/-- Modelled from the spec: the OK status value of a response envelope
(`yar.ERR_OKEY`). -/
def ERR_OKEY : Nat := 0

/-- A fixed-width byte field of width `w`: the Go pattern of a
zero-initialised byte array receiving `l[i]` for each `i < min w l.length`
(copy loops in `initRequest`/`packRequest`, `make`+`copy` in
`StrToFixedBytes`). -/
def fixedField : Nat → List Nat → List Nat
  | 0, _ => []
  | w + 1, [] => 0 :: fixedField w []
  | w + 1, a :: t => a :: fixedField w t

/-- Modelled from the spec: `yar.StrToFixedBytes` pads short strings and
truncates long ones to exactly `l` bytes (spec §4.1, §8; the `yar`
package is not under `src/`). -/
def StrToFixedBytes (s : List Nat) (l : Nat) : List Nat := fixedField l s

/-- Modelled from the spec: the fixed-width wire header (`yar.Header`),
fields and widths from the spec's table (§6). -/
structure Header where
  MagicNumber : Nat
  Id : Nat
  Provider : List Nat
  Token : List Nat
  Packager : List Nat
  BodyLength : Nat
  deriving DecidableEq, Repr

/-- Modelled from the spec: `yar.NewHeader`, a zeroed header. -/
def NewHeader : Header :=
  { MagicNumber := 0
    Id := 0
    Provider := List.replicate 28 0
    Token := List.replicate 32 0
    Packager := List.replicate 8 0
    BodyLength := 0 }

/-- Big-endian 32-bit read at byte offset `off` (out-of-range bytes read
as 0, matching a zero-filled buffer). -/
def readU32 (bs : List Nat) (off : Nat) : Nat :=
  (bs.getD off 0 % 256) * 16777216 + (bs.getD (off + 1) 0 % 256) * 65536 +
    (bs.getD (off + 2) 0 % 256) * 256 + (bs.getD (off + 3) 0 % 256)

/-- Big-endian serialisation of a 32-bit value. -/
def writeU32 (n : Nat) : List Nat :=
  [n / 16777216 % 256, n / 65536 % 256, n / 256 % 256, n % 256]

/-- Modelled from the spec: `Header.Init`, parsing the 80-byte header
buffer in the spec's field order (§6). -/
def headerInit (bs : List Nat) : Header :=
  { MagicNumber := readU32 bs 0
    Id := readU32 bs 4
    Provider := (bs.drop 8).take 28
    Token := (bs.drop 36).take 32
    Packager := (bs.drop 68).take 8
    BodyLength := readU32 bs 76 }

/-- Modelled from the spec: `Header.Bytes`, serialising the header in the
spec's field order (§6). -/
def headerBytes (h : Header) : List Nat :=
  writeU32 (h.MagicNumber % u32size) ++ writeU32 (h.Id % u32size) ++
    fixedField 28 h.Provider ++ fixedField 32 h.Token ++
    fixedField 8 h.Packager ++ writeU32 (h.BodyLength % u32size)

/-- Modelled from the spec: `yar.Opt` — per-endpoint configuration
(§2, §3).  Go strings are byte strings here. -/
structure Opt where
  Provider : List Nat
  ServiceName : List Nat
  MagicNumber : Nat
  Packager : List Nat
  Timeout : Nat
  DNSCache : Bool
  RequestGzip : Bool
  AcceptGzip : Bool
  deriving DecidableEq, Repr

/-- Modelled from the spec: `yar.NewOpt` defaults (0x80DFEC60 is the
protocol tag of spec §8 Scenario A; the defaults are irrelevant to the
claims). -/
def NewOpt : Opt :=
  { Provider := []
    ServiceName := []
    MagicNumber := 2162420832
    Packager := []
    Timeout := 5000
    DNSCache := false
    RequestGzip := false
    AcceptGzip := false }

/-- Modelled from the spec: `yar.Request` — header + method + params
(§3). `V` is the opaque parameter/return-value type handled by the
codec. -/
structure Request (V : Type) where
  Id : Nat
  Protocol : Header
  Method : List Nat
  Params : List V
  deriving DecidableEq, Repr

/-- Modelled from the spec: `yar.NewRequest` (the correlation id
generator is external; it is modelled as 0, which no claim depends
on). -/
def NewRequest (V : Type) : Request V :=
  { Id := 0, Protocol := NewHeader, Method := [], Params := [] }

/-- Modelled from the spec: `yar.Response` — status, error message,
opaque return value (§3). -/
structure YResponse (V : Type) where
  Status : Nat
  Error : String
  Retval : V
  deriving DecidableEq, Repr

/-- The external Packager (codec) interface: `packager.Pack` /
`packager.Unpack`, selected by codec-name bytes (first argument),
specialised to the three value shapes the client uses. -/
structure PackagerAPI (V : Type) where
  packReq : List Nat → Request V → Except String (List Nat)
  packVal : List Nat → V → Except String (List Nat)
  unpackResp : List Nat → List Nat → Except String (YResponse V)
  unpackVal : List Nat → List Nat → Except String V

/-- An HTTP response as the client observes it: the Content-Encoding
header and the raw body bytes. -/
structure HttpResult where
  contentEncoding : String
  body : List Nat
  deriving DecidableEq, Repr

/-- A yar client: address, parsed scheme, options
(`client.Client`; the unused sock transport field is omitted). -/
structure Client where
  hostname : String
  net : String
  Opt : Opt
  deriving DecidableEq, Repr

/-- Split an address at the first `://`, returning the scheme characters
and the rest. -/
def splitScheme : List Char → Option (List Char × List Char)
  | [] => none
  | ':' :: '/' :: '/' :: rest => some ([], rest)
  | c :: rest =>
      match splitScheme rest with
      | some (s, r) => some (c :: s, r)
      | none => none

/-- Modelled from the spec: `parseAddrNetName` (not under `src/`)
accepts exactly the schemes http, https, tcp, udp, unix (§6). -/
def parseAddrNetName (addr : String) : Except String String :=
  match splitScheme addr.data with
  | some (schemeChars, _) =>
      let scheme := String.mk schemeChars
      if scheme = ("http") ∨ scheme = ("https") ∨ scheme = ("tcp") ∨
          scheme = ("udp") ∨ scheme = ("unix") then
        .ok scheme
      else
        .error ("unsupported scheme")
  | none => .error ("invalid address")

/-- `NewClient`: parse the scheme; a parse failure is a Param error;
otherwise the client is constructed with default options (the
`client.init` call only prepares the unused sock transport and cannot
fail construction). -/
def NewClient (addr : String) : Except YarError Client :=
  match parseAddrNetName addr with
  | .error e => .error (newError .errorParam e)
  | .ok netName => .ok { hostname := addr, net := netName, Opt := NewOpt }

/-- `client.initRequest`: copy provider/credential into the fixed-width
header fields, reject an empty method with a Param error, default params
to the given sequence, stamp magic number and correlation id. -/
def initRequest {V : Type} (opt : Opt) (method : List Nat) (params : List V) :
    Except YarError (Request V) :=
  let r0 := NewRequest V
  let bs := StrToFixedBytes opt.Provider 28
  let r1 := { r0 with Protocol := { r0.Protocol with
                Provider := fixedField r0.Protocol.Provider.length bs } }
  let cs := StrToFixedBytes opt.ServiceName 32
  let r2 := { r1 with Protocol := { r1.Protocol with
                Token := fixedField r1.Protocol.Token.length cs } }
  if method.length < 1 then
    .error (newError .errorParam ("call empty method"))
  else
    .ok { r2 with
          Params := params
          Method := method
          Protocol := { r2.Protocol with
                        MagicNumber := opt.MagicNumber
                        Id := r2.Id } }

/-- `client.packRequest`: truncate the codec name to at most 8 bytes,
write it into the header's 8-byte field, encode the whole request with
the codec; a codec failure is a Packager error. -/
def packRequest {V : Type} (opt : Opt) (api : PackagerAPI V) (r : Request V) :
    Except YarError (List Nat × Request V) :=
  let sendPackager :=
    if opt.Packager.length < PackagerLength then opt.Packager
    else opt.Packager.take PackagerLength
  let p := fixedField 8 sendPackager
  let r1 := { r with Protocol := { r.Protocol with Packager := p } }
  match api.packReq sendPackager r1 with
  | .error e => .error (newError .errorPackager e)
  | .ok pack => .ok (pack, r1)

/-- The body-length stamp and framing step of `httpHandler`
(`r.Protocol.BodyLength = uint32(len(packBody) + yar.PackagerLength)`
followed by `postBuffer = header bytes ++ packBody`). -/
def buildPost {V : Type} (packBody : List Nat) (r : Request V) :
    Request V × List Nat :=
  let r2 := { r with Protocol := { r.Protocol with
                BodyLength := (packBody.length + PackagerLength) % u32size } }
  (r2, headerBytes r2.Protocol ++ packBody)

/-- The codec-decode stage of `client.readResponse` (everything after the
two length checks): decode the envelope (failure → Packager error); on a
non-OK status return a Response error carrying the server message; on OK,
if a result target was supplied (`retNonNil`), re-encode the decoded
return value and decode it again, either failure being a Packager error
whose message embeds the raw response bytes.  `.ok (some v)` models the
target being written with `v`, `.ok none` a nil target left alone. -/
def decodeBody {V : Type} (opt : Opt) (api : PackagerAPI V) (retNonNil : Bool)
    (allBody : List Nat) : Except YarError (Option V) :=
  let bodyBuffer := allBody.drop (ProtocolLength + PackagerLength)
  match api.unpackResp opt.Packager bodyBuffer with
  | .error e => .error (newError .errorPackager (("Unpack Error:") ++ e))
  | .ok response =>
      if response.Status ≠ ERR_OKEY then
        .error (newError .errorResponse response.Error)
      else if retNonNil then
        match api.packVal opt.Packager response.Retval with
        | .error e =>
            .error (newError .errorPackager
              (("pack response retval error:") ++ e ++ (" ") ++ bytesToStr allBody))
        | .ok packData =>
            match api.unpackVal opt.Packager packData with
            | .error e =>
                .error (newError .errorPackager
                  (("pack response retval error:") ++ e ++ (" ") ++ bytesToStr allBody))
            | .ok v => .ok (some v)
      else .ok none

/-- `client.readResponse` on the fully-read reply bytes: reject a reply
shorter than the 80-byte fixed header; parse the header; compute the
remaining body length as the uint32 subtraction
`header.BodyLength - PackagerLength`; reject a reply whose remaining
bytes are fewer than that; otherwise run the codec-decode stage.
(The `ioutil.ReadAll` step is external I/O; this function receives the
bytes it produced.) -/
def readResponse {V : Type} (opt : Opt) (api : PackagerAPI V) (retNonNil : Bool)
    (allBody : List Nat) : Except YarError (Option V) :=
  if allBody.length < ProtocolLength + PackagerLength then
    .error (newError .errorResponse (("Response Parse Error:") ++ bytesToStr allBody))
  else
    let protocolBuffer := allBody.take (ProtocolLength + PackagerLength)
    let protocol := headerInit protocolBuffer
    let bodyLength := (protocol.BodyLength + u32size - PackagerLength) % u32size
    if (allBody.length - (ProtocolLength + PackagerLength)) % u32size < bodyLength then
      .error (newError .errorResponse (("Response Content Error:") ++ bytesToStr allBody))
    else
      decodeBody opt api retNonNil allBody

/-- The response-body selection step of `httpHandler`: if the server
says `Content-Encoding: gzip`, attempt decompression and on failure fall
back to the raw bytes; otherwise use the raw bytes. -/
def responseBody (gunzip : List Nat → Except String (List Nat))
    (contentEncoding : String) (body : List Nat) : List Nat :=
  if contentEncoding = ("gzip") then
    match gunzip body with
    | .ok d => d
    | .error _ => body
  else body

/-- `client.httpHandler`: build and encode the request, stamp the body
length, frame header + body, optionally gzip the outgoing frame (a
compression failure is a Network error), send it over the transport
(a transport failure — including timeout and dial errors — is a Network
error), select the response body with the gzip-fallback rule, and decode
it with `readResponse`.  `trans` abstracts the fasthttp `DoTimeout`
round-trip (handle selection and the shared-handle timeout write mutate
external transport state and do not affect the returned value),
`gzipComp`/`gunzip` abstract the gzip codec. -/
def httpHandler {V : Type} (opt : Opt) (api : PackagerAPI V)
    (trans : List Nat → Except String HttpResult)
    (gzipComp : List Nat → Except String (List Nat))
    (gunzip : List Nat → Except String (List Nat))
    (method : List Nat) (retNonNil : Bool) (params : List V) :
    Except YarError (Option V) :=
  match initRequest opt method params with
  | .error e => .error e
  | .ok r =>
      match packRequest opt api r with
      | .error e => .error e
      | .ok (packBody, r1) =>
          let pr := buildPost packBody r1
          match (if opt.RequestGzip then gzipComp pr.2 else .ok pr.2) with
          | .error ge => .error (newError .errorNetwork ge)
          | .ok outBody =>
              match trans outBody with
              | .error pe => .error (newError .errorNetwork pe)
              | .ok resp =>
                  readResponse opt api retNonNil
                    (responseBody gunzip resp.contentEncoding resp.body)

/-- `client.Call`: dispatch http/https to `httpHandler`; every other
scheme gets an immediate Config error. -/
def Call {V : Type} (client : Client) (api : PackagerAPI V)
    (trans : List Nat → Except String HttpResult)
    (gzipComp : List Nat → Except String (List Nat))
    (gunzip : List Nat → Except String (List Nat))
    (method : List Nat) (retNonNil : Bool) (params : List V) :
    Except YarError (Option V) :=
  if client.net = ("http") ∨ client.net = ("https") then
    httpHandler client.Opt api trans gzipComp gunzip method retNonNil params
  else
    .error (newError .errorConfig ("unsupported non http protocol"))

/-- Index of the last occurrence of byte `c` (`strings.LastIndex`). -/
def lastIndexOf (l : List Nat) (c : Nat) : Option Nat :=
  match l with
  | [] => none
  | x :: xs =>
      match lastIndexOf xs c with
      | some j => some (j + 1)
      | none => if x = c then some 0 else none

/-- The DNS-cache dial closure installed on `dnsCacheHttpClient` in
`init`: split the address at the last `:` (byte 58), resolve the host
part through the external Resolver, fail on a resolver error or an empty
address list, otherwise dial only the first returned address joined with
the original `:port` suffix.  `resolver` abstracts
`globalResolver.Lookup`, `dial` abstracts `net.Dial` (its result type is
opaque).  An address without a `:` makes the Go code slice with index
-1 and panic; no claim concerns that case and it is modelled as an
error. -/
def dnsCacheDial {γ : Type} (resolver : List Nat → Except String (List (List Nat)))
    (dial : List Nat → Except String γ) (address : List Nat) :
    Except String γ :=
  match lastIndexOf address 58 with
  | none => .error ("slice bounds out of range")
  | some separator =>
      match resolver (address.take separator) with
      | .error e => .error (("Lookup Error:") ++ e)
      | .ok ips =>
          if ips.length < 1 then
            .error ("Lookup Error: No IP Resolver Result Found")
          else
            dial (ips.headD [] ++ address.drop separator)

end YarGo

namespace HostSync

/-- A lowercase hex digit. -/
def hexDigit (n : Nat) : Char :=
  if n < 10 then Char.ofNat (48 + n) else Char.ofNat (87 + n)

/-- `hex.EncodeToString` on a byte string. -/
def hexEncode (bs : List Nat) : String :=
  String.mk (bs.foldr
    (fun b acc => hexDigit (b % 256 / 16) :: hexDigit (b % 256 % 16) :: acc) [])

/-- The observable state of the host-sync collaborator: the in-process
`hostCheckSum` map (an association list, most recent binding first) and
the log of `SetHostListToRedis` calls (the writes to the shared
store). -/
structure SyncState where
  hostCheckSum : List (String × String)
  redisWrites : List (String × String × List String)
  deriving DecidableEq, Repr

/-- Go map read with zero-value default: `sum, _ := hostCheckSum[key]`. -/
def checkSumAt (st : SyncState) (key : String) : String :=
  (st.hostCheckSum.lookup key).getD ("")

/-- The loop body of `SyncAllHostList` for one `(pool, service,
hostList)` entry: compute the digest `hex(json.Marshal(hostList))`, skip
the entry when it equals the stored digest for key `pool_service`,
otherwise publish the list to the shared store and record the digest.
`jsonM` abstracts `json.Marshal` on a `[]string`. -/
def syncEntry (jsonM : List String → List Nat) (st : SyncState)
    (pool service : String) (hostList : List String) : SyncState :=
  let key := pool ++ ("_") ++ service
  let sum := checkSumAt st key
  let s := hexEncode (jsonM hostList)
  if sum = s then st
  else
    { hostCheckSum := (key, s) :: st.hostCheckSum
      redisWrites := st.redisWrites ++ [(pool, service, hostList)] }

/-- A sync run of `SyncAllHostList` over its grouped entries, flattened
to the order-irrelevant list of `(pool, service, hostList)` triples the
nested loops visit. -/
def SyncAllHostList (jsonM : List String → List Nat) (st : SyncState)
    (entries : List (String × String × List String)) : SyncState :=
  entries.foldl (fun st0 e => syncEntry jsonM st0 e.1 e.2.1 e.2.2) st

/-- The publication performed by `GetHostListFromDockerAPI` after a
successful fetch (src/unnamed/part_000 line 119): it calls
`SetHostListToRedis` unconditionally, consulting neither `hostCheckSum`
nor updating it. -/
def getHostListPublish (st : SyncState) (pool name : String)
    (hostList : List String) : SyncState :=
  { st with redisWrites := st.redisWrites ++ [(pool, name, hostList)] }

end HostSync

namespace YarGo

/-- A concrete codec over `Nat` values, used to instantiate the external
Packager interface on concrete inputs. -/
def natApi : PackagerAPI Nat :=
  { packReq := fun _ _ => .ok []
    packVal := fun _ v => .ok [v % 256]
    unpackResp := fun _ b => .ok { Status := 0, Error := (""), Retval := b.length }
    unpackVal := fun _ b => .ok b.length }

/-- The request `initRequest` builds from default options and the
one-byte method `[109]`. -/
def c1r : Request Nat :=
  { Id := 0
    Protocol :=
      { MagicNumber := 2162420832
        Id := 0
        Provider := List.replicate 28 0
        Token := List.replicate 32 0
        Packager := List.replicate 8 0
        BodyLength := 0 }
    Method := [109]
    Params := [] }

/-- An 80-byte reply whose header claims `BodyLength = n` (all other
header fields zero) followed by `body`. -/
def replyBytes (n : Nat) (body : List Nat) : List Nat :=
  List.replicate 76 0 ++ writeU32 (n % u32size) ++ body

/-- A concrete codec whose decoded envelope reports a non-OK status with
a server-supplied message. -/
def errApi : PackagerAPI Nat :=
  { packReq := fun _ _ => .ok []
    packVal := fun _ v => .ok [v % 256]
    unpackResp := fun _ _ => .ok { Status := 1, Error := ("server boom"), Retval := 0 }
    unpackVal := fun _ b => .ok b.length }

/-- A concrete codec whose decoded envelope is OK but whose retval
re-encode stage fails. -/
def okRespApi : PackagerAPI Nat :=
  { packReq := fun _ _ => .ok []
    packVal := fun _ _ => .error ("pv fail")
    unpackResp := fun _ _ => .ok { Status := 0, Error := (""), Retval := 7 }
    unpackVal := fun _ b => .ok b.length }

end YarGo

namespace YarGo

theorem fixedField_length (w : Nat) (l : List Nat) : (fixedField w l).length = w := by
  induction w generalizing l with
  | zero => simp [fixedField]
  | succ n ih =>
      cases l with
      | nil => simp [fixedField, ih]
      | cons a t => simp [fixedField, ih]

theorem fixedField_eq_pad (w : Nat) (l : List Nat) :
    fixedField w l = l.take w ++ List.replicate (w - l.length) 0 := by
  induction w generalizing l with
  | zero => simp [fixedField]
  | succ n ih =>
      cases l with
      | nil => simp [fixedField, ih, List.replicate_succ]
      | cons a t => simp [fixedField, ih, Nat.succ_sub_succ]

theorem fixedField_of_length (l : List Nat) (w : Nat) (h : l.length = w) :
    fixedField w l = l := by
  subst h
  induction l with
  | nil => simp [fixedField]
  | cons a t ih => simp [fixedField, ih]

theorem fixedField_idem (w : Nat) (l : List Nat) :
    fixedField w (fixedField w l) = fixedField w l :=
  fixedField_of_length _ _ (fixedField_length w l)

/-- `initRequest` on an empty method: the Param error, reached after the
provider/credential copies but before anything else. -/
theorem initRequest_nil {V : Type} (opt : Opt) (params : List V) :
    initRequest opt [] params =
      Except.error (newError .errorParam ("call empty method")) := by
  simp [initRequest]

/-- `initRequest` on a non-empty method: the fully-assembled request. -/
theorem initRequest_cons {V : Type} (opt : Opt) (a : Nat) (t : List Nat)
    (params : List V) :
    initRequest opt (a :: t) params =
      Except.ok
        { Id := 0
          Protocol :=
            { MagicNumber := opt.MagicNumber
              Id := 0
              Provider := fixedField 28 opt.Provider
              Token := fixedField 32 opt.ServiceName
              Packager := List.replicate 8 0
              BodyLength := 0 }
          Method := a :: t
          Params := params } := by
  simp [initRequest, NewRequest, NewHeader, StrToFixedBytes, fixedField_idem]

/-- C4: `initRequest` returns a Param error iff the method is empty; on
success the header's provider and credential fields are exactly 28 and
32 bytes, pad-or-truncated from the configured strings regardless of
their length; and a `Call` with an empty method returns the Param error
for every transport, so no bytes reach any transport. -/
theorem initRequest_param_gate {V : Type} (opt : Opt) (method : List Nat)
    (params : List V) :
    ((∃ e, initRequest opt method params = Except.error e) ↔ method = []) ∧
    (method = [] →
      initRequest opt method params =
        Except.error (newError .errorParam ("call empty method"))) ∧
    (∀ r, initRequest opt method params = Except.ok r →
      r.Protocol.Provider =
          opt.Provider.take 28 ++ List.replicate (28 - opt.Provider.length) 0 ∧
      r.Protocol.Provider.length = 28 ∧
      r.Protocol.Token =
          opt.ServiceName.take 32 ++
            List.replicate (32 - opt.ServiceName.length) 0 ∧
      r.Protocol.Token.length = 32) ∧
    (∀ (client : Client) (api : PackagerAPI V)
        (trans : List Nat → Except String HttpResult)
        (gzipComp gunzip : List Nat → Except String (List Nat))
        (retNonNil : Bool),
      client.net = ("http") ∨ client.net = ("https") →
      Call client api trans gzipComp gunzip [] retNonNil params =
        Except.error (newError .errorParam ("call empty method"))) := by
  have hcall : ∀ (client : Client) (api : PackagerAPI V)
      (trans : List Nat → Except String HttpResult)
      (gzipComp gunzip : List Nat → Except String (List Nat))
      (retNonNil : Bool),
      client.net = ("http") ∨ client.net = ("https") →
      Call client api trans gzipComp gunzip [] retNonNil params =
        Except.error (newError .errorParam ("call empty method")) := by
    intro client api trans gzipComp gunzip retNonNil h
    rcases h with h | h <;>
      simp [Call, h, httpHandler, initRequest_nil]
  cases method with
  | nil =>
      refine ⟨by simp [initRequest_nil], fun _ => initRequest_nil opt params,
        ?_, hcall⟩
      intro r hr
      rw [initRequest_nil] at hr
      exact absurd hr (by simp)
  | cons a t =>
      refine ⟨by simp [initRequest_cons], by intro h; exact absurd h (by simp),
        ?_, hcall⟩
      intro r hr
      rw [initRequest_cons] at hr
      injection hr with hr
      subst hr
      refine ⟨fixedField_eq_pad 28 opt.Provider, fixedField_length 28 _,
        fixedField_eq_pad 32 opt.ServiceName, fixedField_length 32 _⟩

/-- Witness for C4 at concrete inputs: the empty method yields the Param
error from `initRequest` and from a full `Call` over a concrete
transport. -/
theorem initRequest_param_gate_w :
    (initRequest NewOpt ([] : List Nat) ([] : List Nat) =
      Except.error (newError .errorParam ("call empty method"))) ∧
    (Call { hostname := ("http://h"), net := ("http"), Opt := NewOpt } natApi
        (fun _ => Except.ok { contentEncoding := (""), body := [] })
        (fun b => Except.ok b) (fun b => Except.ok b) [] true [] =
      Except.error (newError .errorParam ("call empty method"))) :=
  ⟨(initRequest_param_gate NewOpt [] ([] : List Nat)).2.1 rfl,
   (initRequest_param_gate NewOpt [] ([] : List Nat)).2.2.2
      _ natApi _ _ _ true (Or.inl rfl)⟩

/-- C6: clients with tcp/udp/unix schemes are constructed successfully,
and every `Call` on such a client returns the Config error immediately,
for every transport oracle (so no connection is attempted). -/
theorem newClient_sock_schemes :
    (NewClient ("tcp://example.com:80") =
      Except.ok
        { hostname := ("tcp://example.com:80"), net := ("tcp"), Opt := NewOpt }) ∧
    (NewClient ("udp://example.com:80") =
      Except.ok
        { hostname := ("udp://example.com:80"), net := ("udp"), Opt := NewOpt }) ∧
    (NewClient ("unix:///tmp/yar.sock") =
      Except.ok
        { hostname := ("unix:///tmp/yar.sock"), net := ("unix"), Opt := NewOpt }) ∧
    (∀ {V : Type} (client : Client) (api : PackagerAPI V)
        (trans : List Nat → Except String HttpResult)
        (gzipComp gunzip : List Nat → Except String (List Nat))
        (method : List Nat) (retNonNil : Bool) (params : List V),
      client.net = ("tcp") ∨ client.net = ("udp") ∨ client.net = ("unix") →
      Call client api trans gzipComp gunzip method retNonNil params =
        Except.error (newError .errorConfig ("unsupported non http protocol"))) := by
  refine ⟨by rfl, by rfl, by rfl, ?_⟩
  intro V client api trans gzipComp gunzip method retNonNil params h
  rcases h with h | h | h <;>
    · simp only [Call, h]
      rw [if_neg (by decide)]

/-- Witness for C6: a concrete tcp client's `Call` hits the Config
error. -/
theorem newClient_sock_schemes_w :
    Call { hostname := ("tcp://example.com:80"), net := ("tcp"), Opt := NewOpt }
        natApi (fun _ => Except.ok { contentEncoding := (""), body := [] })
        (fun b => Except.ok b) (fun b => Except.ok b) ([109]) true
        ([] : List Nat) =
      Except.error (newError .errorConfig ("unsupported non http protocol")) :=
  newClient_sock_schemes.2.2.2 _ natApi _ _ _ _ true _ (Or.inl rfl)

/-- C1: once `packRequest` has succeeded, `httpHandler` stamps the
header's body-length field with the encoded-body length plus the 8-byte
codec-name width, the header bytes it frames carry that stamped header,
and (request compression off) exactly that frame is handed to the
transport. -/
theorem httpHandler_sets_bodyLength {V : Type} (opt : Opt)
    (api : PackagerAPI V) (trans : List Nat → Except String HttpResult)
    (gzipComp gunzip : List Nat → Except String (List Nat))
    (method : List Nat) (retNonNil : Bool) (params : List V)
    (r : Request V) (packBody : List Nat) (r1 : Request V)
    (h1 : initRequest opt method params = Except.ok r)
    (h2 : packRequest opt api r = Except.ok (packBody, r1))
    (h3 : packBody.length + PackagerLength < u32size)
    (h4 : opt.RequestGzip = false) :
    (buildPost packBody r1).1.Protocol.BodyLength =
        packBody.length + PackagerLength ∧
    (buildPost packBody r1).2 =
        headerBytes (buildPost packBody r1).1.Protocol ++ packBody ∧
    httpHandler opt api trans gzipComp gunzip method retNonNil params =
      (match trans (buildPost packBody r1).2 with
       | .error pe => .error (newError .errorNetwork pe)
       | .ok resp =>
           readResponse opt api retNonNil
             (responseBody gunzip resp.contentEncoding resp.body)) := by
  refine ⟨?_, rfl, ?_⟩
  · simp [buildPost, Nat.mod_eq_of_lt h3]
  · simp [httpHandler, h1, h2, h4]

theorem readResponse_parse_err {V : Type} (opt : Opt) (api : PackagerAPI V)
    (retNonNil : Bool) (allBody : List Nat)
    (h : allBody.length < ProtocolLength + PackagerLength) :
    readResponse opt api retNonNil allBody =
      Except.error (newError .errorResponse
        (("Response Parse Error:") ++ bytesToStr allBody)) := by
  simp only [readResponse]
  rw [if_pos h]

theorem readResponse_content_err {V : Type} (opt : Opt) (api : PackagerAPI V)
    (retNonNil : Bool) (allBody : List Nat)
    (h80 : ProtocolLength + PackagerLength ≤ allBody.length)
    (hlt : (allBody.length - (ProtocolLength + PackagerLength)) % u32size <
      ((headerInit (allBody.take (ProtocolLength + PackagerLength))).BodyLength +
        u32size - PackagerLength) % u32size) :
    readResponse opt api retNonNil allBody =
      Except.error (newError .errorResponse
        (("Response Content Error:") ++ bytesToStr allBody)) := by
  simp only [readResponse]
  rw [if_neg (Nat.not_lt.mpr h80), if_pos hlt]

theorem readResponse_decode {V : Type} (opt : Opt) (api : PackagerAPI V)
    (retNonNil : Bool) (allBody : List Nat)
    (h80 : ProtocolLength + PackagerLength ≤ allBody.length)
    (hge : ¬ (allBody.length - (ProtocolLength + PackagerLength)) % u32size <
      ((headerInit (allBody.take (ProtocolLength + PackagerLength))).BodyLength +
        u32size - PackagerLength) % u32size) :
    readResponse opt api retNonNil allBody = decodeBody opt api retNonNil allBody := by
  simp only [readResponse]
  rw [if_neg (Nat.not_lt.mpr h80), if_neg hge]

/-- C2: `readResponse` rejects a reply shorter than the 80-byte fixed
header with a Response error, rejects a reply whose remaining bytes are
fewer than the header-claimed body length minus the 8-byte codec-name
width (in uint32 arithmetic) with a Response error, and hands exactly
the replies passing both checks to the codec-decode stage. -/
theorem readResponse_length_gate {V : Type} (opt : Opt) (api : PackagerAPI V)
    (retNonNil : Bool) (allBody : List Nat) :
    (allBody.length < ProtocolLength + PackagerLength →
      readResponse opt api retNonNil allBody =
        Except.error (newError .errorResponse
          (("Response Parse Error:") ++ bytesToStr allBody))) ∧
    (ProtocolLength + PackagerLength ≤ allBody.length →
      ((allBody.length - (ProtocolLength + PackagerLength)) % u32size <
          ((headerInit (allBody.take (ProtocolLength + PackagerLength))).BodyLength +
            u32size - PackagerLength) % u32size →
        readResponse opt api retNonNil allBody =
          Except.error (newError .errorResponse
            (("Response Content Error:") ++ bytesToStr allBody))) ∧
      (¬ (allBody.length - (ProtocolLength + PackagerLength)) % u32size <
          ((headerInit (allBody.take (ProtocolLength + PackagerLength))).BodyLength +
            u32size - PackagerLength) % u32size →
        readResponse opt api retNonNil allBody =
          decodeBody opt api retNonNil allBody)) :=
  ⟨readResponse_parse_err opt api retNonNil allBody,
   fun h80 =>
    ⟨readResponse_content_err opt api retNonNil allBody h80,
     readResponse_decode opt api retNonNil allBody h80⟩⟩

/-- Witness for C2 at two concrete replies: a 1-byte reply fails the
header-width check; an 80-byte reply claiming a 100-byte body fails the
remaining-length check. -/
theorem readResponse_length_gate_w :
    (([1] : List Nat).length < ProtocolLength + PackagerLength ∧
      readResponse NewOpt natApi true [1] =
        Except.error (newError .errorResponse
          (("Response Parse Error:") ++ bytesToStr [1]))) ∧
    (ProtocolLength + PackagerLength ≤ (replyBytes 100 []).length ∧
      readResponse NewOpt natApi true (replyBytes 100 []) =
        Except.error (newError .errorResponse
          (("Response Content Error:") ++ bytesToStr (replyBytes 100 [])))) :=
  ⟨⟨by decide,
    (readResponse_length_gate NewOpt natApi true [1]).1 (by decide)⟩,
   ⟨by decide,
    ((readResponse_length_gate NewOpt natApi true (replyBytes 100 [])).2
      (by decide)).1 (by decide)⟩⟩

/-- C10: when the reply is shorter than 2^32 bytes and its parsed header
claims a body length below the 8-byte codec-name width, the uint32
subtraction wraps to at least 2^32 − 8 and `readResponse` returns the
Response error (so the codec stage is never reached and no buffer is
sliced with that wrapped length). -/
theorem readResponse_underflow_wrap {V : Type} (opt : Opt)
    (api : PackagerAPI V) (retNonNil : Bool) (allBody : List Nat)
    (h80 : ProtocolLength + PackagerLength ≤ allBody.length)
    (hlen : allBody.length < u32size)
    (hbl : (headerInit (allBody.take (ProtocolLength + PackagerLength))).BodyLength <
      PackagerLength) :
    u32size - PackagerLength ≤
      ((headerInit (allBody.take (ProtocolLength + PackagerLength))).BodyLength +
        u32size - PackagerLength) % u32size ∧
    readResponse opt api retNonNil allBody =
      Except.error (newError .errorResponse
        (("Response Content Error:") ++ bytesToStr allBody)) := by
  set bl := (headerInit (allBody.take (ProtocolLength + PackagerLength))).BodyLength with hbl_def
  have hmod : (bl + u32size - PackagerLength) % u32size =
      bl + u32size - PackagerLength := by
    apply Nat.mod_eq_of_lt
    simp only [u32size, PackagerLength] at *
    omega
  have hwrap : u32size - PackagerLength ≤ (bl + u32size - PackagerLength) % u32size := by
    rw [hmod]
    simp only [u32size, PackagerLength] at *
    omega
  refine ⟨hwrap, readResponse_content_err opt api retNonNil allBody h80 ?_⟩
  rw [hmod]
  have hsm : (allBody.length - (ProtocolLength + PackagerLength)) % u32size =
      allBody.length - (ProtocolLength + PackagerLength) := by
    apply Nat.mod_eq_of_lt
    simp only [u32size, ProtocolLength, PackagerLength] at *
    omega
  rw [hsm]
  simp only [u32size, ProtocolLength, PackagerLength] at *
  omega

/-- Witness for C10: an 80-byte reply claiming `BodyLength = 7` is
rejected with the Response content error. -/
theorem readResponse_underflow_wrap_w :
    ProtocolLength + PackagerLength ≤ (replyBytes 7 []).length ∧
    (replyBytes 7 []).length < u32size ∧
    (headerInit ((replyBytes 7 []).take (ProtocolLength + PackagerLength))).BodyLength <
      PackagerLength ∧
    readResponse NewOpt natApi true (replyBytes 7 []) =
      Except.error (newError .errorResponse
        (("Response Content Error:") ++ bytesToStr (replyBytes 7 []))) :=
  ⟨by decide, by decide, by decide,
   (readResponse_underflow_wrap NewOpt natApi true (replyBytes 7 [])
      (by decide) (by decide) (by decide)).2⟩

theorem decodeBody_status_err {V : Type} (opt : Opt) (api : PackagerAPI V)
    (retNonNil : Bool) (allBody : List Nat) (resp : YResponse V)
    (hresp : api.unpackResp opt.Packager
        (allBody.drop (ProtocolLength + PackagerLength)) = Except.ok resp)
    (hst : resp.Status ≠ ERR_OKEY) :
    decodeBody opt api retNonNil allBody =
      Except.error (newError .errorResponse resp.Error) := by
  simp [decodeBody, hresp, hst]

/-- Witness for C1: with default options, the trivial codec and method
`[109]`, the stamped body length is `0 + 8`. -/
theorem httpHandler_sets_bodyLength_w :
    initRequest NewOpt ([109]) ([] : List Nat) = Except.ok c1r ∧
    packRequest NewOpt natApi c1r = Except.ok ([], c1r) ∧
    ([] : List Nat).length + PackagerLength < u32size ∧
    NewOpt.RequestGzip = false ∧
    (buildPost [] c1r).1.Protocol.BodyLength =
      ([] : List Nat).length + PackagerLength :=
  ⟨by rfl, by rfl, by decide, rfl,
   (httpHandler_sets_bodyLength NewOpt natApi
      (fun _ => Except.ok { contentEncoding := (""), body := [] })
      (fun b => Except.ok b) (fun b => Except.ok b) ([109]) true []
      c1r [] c1r (by rfl) (by rfl) (by decide) rfl).1⟩

/-- C3: when the decoded envelope's status is not OK, `readResponse`
returns a Response error carrying the server-supplied message, for every
result-target flag and every retval pack/unpack stage — the two-stage
retval decode is never consulted, so the caller's target is untouched. -/
theorem readResponse_status_not_ok {V : Type} (opt : Opt)
    (api : PackagerAPI V) (allBody : List Nat) (resp : YResponse V)
    (h80 : ProtocolLength + PackagerLength ≤ allBody.length)
    (hge : ¬ (allBody.length - (ProtocolLength + PackagerLength)) % u32size <
      ((headerInit (allBody.take (ProtocolLength + PackagerLength))).BodyLength +
        u32size - PackagerLength) % u32size)
    (hresp : api.unpackResp opt.Packager
        (allBody.drop (ProtocolLength + PackagerLength)) = Except.ok resp)
    (hst : resp.Status ≠ ERR_OKEY) :
    ∀ (retNonNil : Bool) (pv : List Nat → V → Except String (List Nat))
      (uv : List Nat → List Nat → Except String V),
      readResponse opt { api with packVal := pv, unpackVal := uv }
          retNonNil allBody =
        Except.error (newError .errorResponse resp.Error) := by
  intro retNonNil pv uv
  rw [readResponse_decode opt _ retNonNil allBody h80 hge]
  exact decodeBody_status_err opt _ retNonNil allBody resp hresp hst

/-- Witness for C3: a concrete reply whose envelope reports status 1 and
message "server boom" yields exactly that Response error. -/
theorem readResponse_status_not_ok_w :
    ProtocolLength + PackagerLength ≤ (replyBytes 8 []).length ∧
    errApi.unpackResp NewOpt.Packager
        ((replyBytes 8 []).drop (ProtocolLength + PackagerLength)) =
      Except.ok { Status := 1, Error := ("server boom"), Retval := 0 } ∧
    readResponse NewOpt
        { errApi with packVal := fun _ v => Except.ok [v % 256],
                      unpackVal := fun _ b => Except.ok b.length }
        true (replyBytes 8 []) =
      Except.error (newError .errorResponse ("server boom")) :=
  ⟨by decide, by rfl,
   readResponse_status_not_ok NewOpt errApi (replyBytes 8 [])
     { Status := 1, Error := ("server boom"), Retval := 0 }
     (by decide) (by decide) (by rfl) (by decide) true _ _⟩

/-- C5: on an OK envelope with a non-nil result target, `readResponse`
re-encodes the generically-decoded return value and decodes it again
into the target; either stage failing yields a Packager error whose
message embeds the raw response bytes, and both stages succeeding
delivers the re-decoded value to the target. -/
theorem readResponse_retval_two_stage {V : Type} (opt : Opt)
    (api : PackagerAPI V) (allBody : List Nat) (resp : YResponse V)
    (h80 : ProtocolLength + PackagerLength ≤ allBody.length)
    (hge : ¬ (allBody.length - (ProtocolLength + PackagerLength)) % u32size <
      ((headerInit (allBody.take (ProtocolLength + PackagerLength))).BodyLength +
        u32size - PackagerLength) % u32size)
    (hresp : api.unpackResp opt.Packager
        (allBody.drop (ProtocolLength + PackagerLength)) = Except.ok resp)
    (hst : resp.Status = ERR_OKEY) :
    (∀ e, api.packVal opt.Packager resp.Retval = Except.error e →
      readResponse opt api true allBody =
        Except.error (newError .errorPackager
          (("pack response retval error:") ++ e ++ (" ") ++ bytesToStr allBody))) ∧
    (∀ pd e, api.packVal opt.Packager resp.Retval = Except.ok pd →
      api.unpackVal opt.Packager pd = Except.error e →
      readResponse opt api true allBody =
        Except.error (newError .errorPackager
          (("pack response retval error:") ++ e ++ (" ") ++ bytesToStr allBody))) ∧
    (∀ pd v, api.packVal opt.Packager resp.Retval = Except.ok pd →
      api.unpackVal opt.Packager pd = Except.ok v →
      readResponse opt api true allBody = Except.ok (some v)) := by
  have hrd := readResponse_decode opt api true allBody h80 hge
  refine ⟨?_, ?_, ?_⟩
  · intro e hpv
    rw [hrd]
    simp [decodeBody, hresp, hst, hpv]
  · intro pd e hpv huv
    rw [hrd]
    simp [decodeBody, hresp, hst, hpv, huv]
  · intro pd v hpv huv
    rw [hrd]
    simp [decodeBody, hresp, hst, hpv, huv]

/-- Witness for C5: a concrete OK reply whose retval re-encode stage
fails yields the Packager error embedding the raw reply bytes. -/
theorem readResponse_retval_two_stage_w :
    okRespApi.packVal NewOpt.Packager 7 = Except.error ("pv fail") ∧
    readResponse NewOpt okRespApi true (replyBytes 8 []) =
      Except.error (newError .errorPackager
        (("pack response retval error:") ++ ("pv fail") ++ (" ") ++
          bytesToStr (replyBytes 8 []))) :=
  ⟨by rfl,
   (readResponse_retval_two_stage NewOpt okRespApi (replyBytes 8 [])
      { Status := 0, Error := (""), Retval := 7 }
      (by decide) (by decide) (by rfl) rfl).1 ("pv fail") (by rfl)⟩

/-- C7: in DNS-cache mode, a resolver returning zero addresses makes the
dial closure fail with the lookup error before any dial is attempted
(the result is the same for every dial oracle); a resolver returning one
or more addresses leads to exactly one dial, of the first returned
address joined with the original `:port` suffix; and a transport failure
surfaces from `httpHandler` as a Network error. -/
theorem dnsCacheDial_resolver_gate :
    (∀ {γ : Type} (resolver : List Nat → Except String (List (List Nat)))
        (dial : List Nat → Except String γ) (address : List Nat) (sep : Nat),
      lastIndexOf address 58 = some sep →
      resolver (address.take sep) = Except.ok [] →
      dnsCacheDial resolver dial address =
        Except.error ("Lookup Error: No IP Resolver Result Found")) ∧
    (∀ {γ : Type} (resolver : List Nat → Except String (List (List Nat)))
        (dial : List Nat → Except String γ) (address : List Nat) (sep : Nat)
        (ip : List Nat) (ips : List (List Nat)),
      lastIndexOf address 58 = some sep →
      resolver (address.take sep) = Except.ok (ip :: ips) →
      dnsCacheDial resolver dial address = dial (ip ++ address.drop sep)) ∧
    (∀ {V : Type} (opt : Opt) (api : PackagerAPI V)
        (trans : List Nat → Except String HttpResult)
        (gzipComp gunzip : List Nat → Except String (List Nat))
        (method : List Nat) (retNonNil : Bool) (params : List V)
        (r : Request V) (packBody : List Nat) (r1 : Request V) (e : String),
      initRequest opt method params = Except.ok r →
      packRequest opt api r = Except.ok (packBody, r1) →
      opt.RequestGzip = false →
      trans (buildPost packBody r1).2 = Except.error e →
      httpHandler opt api trans gzipComp gunzip method retNonNil params =
        Except.error (newError .errorNetwork e)) := by
  refine ⟨?_, ?_, ?_⟩
  · intro γ resolver dial address sep h1 h2
    simp [dnsCacheDial, h1, h2]
  · intro γ resolver dial address sep ip ips h1 h2
    simp [dnsCacheDial, h1, h2]
  · intro V opt api trans gzipComp gunzip method retNonNil params r packBody r1 e
      h1 h2 hgz htrans
    simp [httpHandler, h1, h2, hgz, htrans]

/-- Witness for C7 on the address bytes of "h:1": an empty resolver
result yields the lookup error for a concrete dial oracle, and a
two-address result dials only the first address on port 1. -/
theorem dnsCacheDial_resolver_gate_w :
    lastIndexOf (strBytes ("h:1")) 58 = some 1 ∧
    dnsCacheDial (fun _ => Except.ok []) (fun a => Except.ok a)
        (strBytes ("h:1")) =
      Except.error ("Lookup Error: No IP Resolver Result Found") ∧
    dnsCacheDial
        (fun _ => Except.ok [strBytes ("10.0.0.1"), strBytes ("10.0.0.2")])
        (fun a => Except.ok a) (strBytes ("h:1")) =
      Except.ok (strBytes ("10.0.0.1") ++ (strBytes ("h:1")).drop 1) :=
  ⟨by rfl,
   dnsCacheDial_resolver_gate.1 (fun _ => Except.ok [])
     (fun a => Except.ok a) (strBytes ("h:1")) 1 (by rfl) (by rfl),
   dnsCacheDial_resolver_gate.2.1
     (fun _ => Except.ok [strBytes ("10.0.0.1"), strBytes ("10.0.0.2")])
     (fun a => Except.ok a) (strBytes ("h:1")) 1
     (strBytes ("10.0.0.1")) [strBytes ("10.0.0.2")] (by rfl) (by rfl)⟩

/-- C8: when the server labels the body gzip, the client attempts
decompression and on failure proceeds with the raw bytes: the body
selection keeps the undecompressed bytes, and `httpHandler` continues
into `readResponse` on them, so a decompression failure alone never
makes a `Call` fail. -/
theorem gzip_fallback :
    (∀ (gunzip : List Nat → Except String (List Nat)) (body : List Nat)
        (e : String),
      gunzip body = Except.error e →
      responseBody gunzip ("gzip") body = body) ∧
    (∀ {V : Type} (opt : Opt) (api : PackagerAPI V)
        (trans : List Nat → Except String HttpResult)
        (gzipComp gunzip : List Nat → Except String (List Nat))
        (method : List Nat) (retNonNil : Bool) (params : List V)
        (r : Request V) (packBody : List Nat) (r1 : Request V)
        (resp : HttpResult) (e : String),
      initRequest opt method params = Except.ok r →
      packRequest opt api r = Except.ok (packBody, r1) →
      opt.RequestGzip = false →
      trans (buildPost packBody r1).2 = Except.ok resp →
      resp.contentEncoding = ("gzip") →
      gunzip resp.body = Except.error e →
      httpHandler opt api trans gzipComp gunzip method retNonNil params =
        readResponse opt api retNonNil resp.body) := by
  constructor
  · intro gunzip body e h
    simp [responseBody, h]
  · intro V opt api trans gzipComp gunzip method retNonNil params r packBody r1
      resp e h1 h2 hgz htrans henc hgun
    simp [httpHandler, h1, h2, hgz, htrans, responseBody, henc, hgun]

/-- Witness for C8: a concrete call whose response claims gzip but fails
to decompress is decoded from the raw bytes. -/
theorem gzip_fallback_w :
    (fun _ : List Nat =>
        Except.error (α := List Nat) ("bad gzip")) (replyBytes 8 []) =
      Except.error ("bad gzip") ∧
    httpHandler NewOpt natApi
        (fun _ => Except.ok { contentEncoding := ("gzip"), body := replyBytes 8 [] })
        (fun b => Except.ok b) (fun _ => Except.error ("bad gzip"))
        ([109]) true [] =
      readResponse NewOpt natApi true (replyBytes 8 []) :=
  ⟨rfl,
   gzip_fallback.2 NewOpt natApi
     (fun _ => Except.ok { contentEncoding := ("gzip"), body := replyBytes 8 [] })
     (fun b => Except.ok b) (fun _ => Except.error ("bad gzip"))
     ([109]) true [] c1r [] c1r
     { contentEncoding := ("gzip"), body := replyBytes 8 [] } ("bad gzip")
     (by rfl) (by rfl) rfl (by rfl) rfl (by rfl)⟩

end YarGo

/-- C9 as stated is false on the code: `GetHostListFromDockerAPI`
publishes to the shared store unconditionally, even when the stored
digest for the `(group, service-name)` key equals the digest of the
candidate list.  Here the digest for key `p_s` is already the digest of
the candidate list, yet the publish still appends a write. -/
theorem getHostListPublish_ignores_digest :
    HostSync.checkSumAt
        (HostSync.syncEntry (fun _ => [104])
          { hostCheckSum := [], redisWrites := [] } ("p") ("s") [("h:1")])
        (("p") ++ ("_") ++ ("s")) =
      HostSync.hexEncode ((fun _ : List String => ([104] : List Nat)) [("h:1")]) ∧
    (HostSync.getHostListPublish
        (HostSync.syncEntry (fun _ => [104])
          { hostCheckSum := [], redisWrites := [] } ("p") ("s") [("h:1")])
        ("p") ("s") [("h:1")]).redisWrites ≠
      (HostSync.syncEntry (fun _ => [104])
        { hostCheckSum := [], redisWrites := [] } ("p") ("s") [("h:1")]).redisWrites := by
  refine ⟨by decide, by decide⟩

/-- C9 (amended): the sync run (`SyncAllHostList`) is digest-gated — an
entry is written to the shared store iff the digest of its host list
differs from the stored digest for its `pool_service` key — and an
immediately repeated sync over the unchanged list publishes nothing and
changes nothing. -/
theorem syncEntry_digest_gate (jsonM : List String → List Nat)
    (st : HostSync.SyncState) (pool service : String)
    (hostList : List String) :
    (¬ (HostSync.syncEntry jsonM st pool service hostList).redisWrites =
        st.redisWrites ↔
      ¬ HostSync.checkSumAt st (pool ++ ("_") ++ service) =
        HostSync.hexEncode (jsonM hostList)) ∧
    HostSync.syncEntry jsonM
        (HostSync.syncEntry jsonM st pool service hostList)
        pool service hostList =
      HostSync.syncEntry jsonM st pool service hostList ∧
    HostSync.SyncAllHostList jsonM
        (HostSync.syncEntry jsonM st pool service hostList)
        [(pool, service, hostList)] =
      HostSync.syncEntry jsonM st pool service hostList := by
  by_cases h : HostSync.checkSumAt st (pool ++ ("_") ++ service) =
      HostSync.hexEncode (jsonM hostList)
  · refine ⟨by simp [HostSync.syncEntry, h], ?_, ?_⟩ <;>
      simp [HostSync.syncEntry, HostSync.SyncAllHostList, h]
  · have hne : ¬ (st.redisWrites ++ [(pool, service, hostList)] = st.redisWrites) := by
      intro heq
      have := congrArg List.length heq
      simp at this
    simp only [HostSync.checkSumAt] at h
    refine ⟨?_, ?_, ?_⟩
    · simp [HostSync.syncEntry, HostSync.checkSumAt, h, hne]
    · simp [HostSync.syncEntry, HostSync.checkSumAt, h, List.lookup]
    · simp [HostSync.SyncAllHostList, HostSync.syncEntry, HostSync.checkSumAt, h,
        List.lookup]


